import Mathlib

set_option maxRecDepth 40000

/-
Verification of the category page enumerator in
src/js/words/domains/grab_wikt_pages.py.

The script runs one loop: while keep_going, it issues an HTTP GET, and on a
200 response parses response["query"]["categorymembers"], flips keep_going
to false when the page is short, extends all_categories with the page's
records, and inspects the optional response["continue"] block; on a non-200
response it only prints the status.  After the loop it prints the count and
writes one title per line to the output file.

The embedding below models one loop iteration as a pure `step` function on
the loop state, a whole run as `run` folding `step` over the list of
responses the server would return (each iteration consumes exactly one
response), and the finalization as `countLine` / `outputFile`.  A `none`
result of `step` models an unhandled Python exception (KeyError on a 200
response whose body lacks query.categorymembers), which aborts the whole
run with no output.
-/

namespace GrabWiktPages

/-- One member record of the category: a JSON object with (at least) a
`title` field, as produced by the API under query.categorymembers. -/
structure PageRecord where
  title : String
  deriving DecidableEq, Repr

/-- The optional `continue` block of a response body.  Each field is the
value of the corresponding key, `none` when the key is absent (the script
reads both with `.get(key, None)`). -/
structure ContBlock where
  cont : Option String
  cmcontinue : Option String
  deriving DecidableEq, Repr

/-- A parsed response body.  `categorymembers = none` models a body in
which `response["query"]["categorymembers"]` raises KeyError (either key
missing); `contBlock = none` models `"continue" not in response`. -/
structure Body where
  categorymembers : Option (List PageRecord)
  contBlock : Option ContBlock
  deriving DecidableEq, Repr

/-- One HTTP response: a status code and a parsed JSON body. -/
structure Response where
  status : Nat
  body : Body
  deriving DecidableEq, Repr

/-- batch_size = 500 at the top of the script. -/
def batch_size : Nat := 500

/-- The mutable state of the while loop: the `keep_going` flag, the
continuation entries of the `args` dict (`none` before any
`args["continue"] = ...` assignment, afterwards the stored
(continue, cmcontinue) pair), and the `all_categories` accumulator. -/
structure LoopState where
  keep_going : Bool
  args : Option (String × String)
  all_categories : List PageRecord
  deriving DecidableEq, Repr

/-- The state on entry to the loop: keep_going = True, no continuation
entries in args yet, all_categories = []. -/
def initState : LoopState :=
  { keep_going := true, args := none, all_categories := [] }

/-- One iteration of the while loop body (lines 33-55 of the script),
given the response the GET returned.  `none` models the unhandled KeyError
when a 200 body lacks query.categorymembers.  On a non-200 status the
script only prints, so the state is returned unchanged. -/
def step (st : LoopState) (r : Response) : Option LoopState :=
  if r.status = 200 then
    match r.body.categorymembers with
    | none => none
    | some cms =>
      let kg := if cms.length < batch_size then false else true
      let acc := st.all_categories ++ cms
      match r.body.contBlock with
      | some cb =>
        match cb.cont, cb.cmcontinue with
        | some cval, some ctoken =>
          if cval = "-||" ∧ ctoken ≠ "" then
            some { keep_going := kg, args := some (cval, ctoken), all_categories := acc }
          else
            some { keep_going := false, args := st.args, all_categories := acc }
        | _, _ =>
          some { keep_going := false, args := st.args, all_categories := acc }
      | none =>
        some { keep_going := kg, args := st.args, all_categories := acc }
  else
    some st

/-- The whole while loop, fed the sequence of responses the server would
return to the successive requests.  Each iteration consumes exactly one
response; the result is the final state together with the responses that
were never requested.  `none` propagates an unhandled exception.  When the
response list runs out while keep_going is still true the run stops with
keep_going still true (distinguishing it from genuine termination). -/
def run : LoopState → List Response → Option (LoopState × List Response)
  | st, [] => some (st, [])
  | st, r :: rest =>
    if st.keep_going then
      match step st r with
      | none => none
      | some st2 => run st2 rest
    else
      some (st, r :: rest)

/-- The records a response carries under query.categorymembers ([] when
the key is missing). -/
def recordsOf (r : Response) : List PageRecord :=
  (r.body.categorymembers).getD []

/-- The line printed after the loop: "Found {n} categories.". -/
def countLine (n : Nat) : String :=
  "Found " ++ toString n ++ " categories."

/-- The full contents written to the output file: each record's title
followed by a newline, in accumulator order. -/
def outputFile (recs : List PageRecord) : String :=
  String.join (recs.map (fun c => c.title ++ "\n"))

/-- The lines of the output file, one per accumulated record. -/
def outputLines (recs : List PageRecord) : List String :=
  recs.map (fun c => c.title)

/-- A complete run of the script's main block from the initial state. -/
def runProgram (rs : List Response) : Option (LoopState × List Response) :=
  run initState rs

/-- The observable output of a run: the printed count line and the output
file contents, produced once, from the final accumulator, only when the
loop finished without an unhandled exception. -/
def programOutput (rs : List Response) : Option (String × String) :=
  (runProgram rs).map
    (fun p => (countLine p.1.all_categories.length, outputFile p.1.all_categories))

/-- A response as in a non-final page of a well-behaved paginated reply:
status 200, exactly batch_size records, and a continuation block whose
continue value is the sentinel "-||" and whose cmcontinue token is a
nonempty string. -/
def FullValidPage (p : Response) : Prop :=
  p.status = 200 ∧
    ∃ cms cb t, p.body.categorymembers = some cms ∧ cms.length = batch_size ∧
      p.body.contBlock = some cb ∧ cb.cont = some "-||" ∧
      cb.cmcontinue = some t ∧ t ≠ ""

/-- A response whose record list is strictly shorter than batch_size. -/
def ShortPage (p : Response) : Prop :=
  p.status = 200 ∧ ∃ cms, p.body.categorymembers = some cms ∧ cms.length < batch_size

/-- A response that carries no valid continuation: its continue block is
absent, or the continue value differs from "-||", or the cmcontinue token
is absent or empty. -/
def hasNoValidCont (r : Response) : Prop :=
  ∀ cb, r.body.contBlock = some cb →
    ¬ (cb.cont = some "-||" ∧ ∃ t, cb.cmcontinue = some t ∧ t ≠ "")

lemma step_full (st : LoopState) (r : Response) (cms : List PageRecord)
    (cb : ContBlock) (t : String)
    (h200 : r.status = 200) (hcms : r.body.categorymembers = some cms)
    (hlen : cms.length = batch_size) (hcb : r.body.contBlock = some cb)
    (hcv : cb.cont = some "-||") (hct : cb.cmcontinue = some t) (ht : t ≠ "") :
    step st r = some { keep_going := true,
                       args := some ("-||", t),
                       all_categories := st.all_categories ++ cms } := by
  have h1 : ¬ (cms.length < batch_size) := by omega
  simp [step, h200, hcms, hcb, hcv, hct, h1, ht]

lemma step_short (st : LoopState) (r : Response) (cms : List PageRecord)
    (h200 : r.status = 200) (hcms : r.body.categorymembers = some cms)
    (hlen : cms.length < batch_size) :
    ∃ a, step st r = some { keep_going := false,
                            args := a,
                            all_categories := st.all_categories ++ cms } := by
  rcases hcb : r.body.contBlock with _ | cb
  · exact ⟨st.args, by simp [step, h200, hcms, hcb, hlen]⟩
  · rcases hcv : cb.cont with _ | cval <;> rcases hct : cb.cmcontinue with _ | ctoken
    · exact ⟨st.args, by simp [step, h200, hcms, hcb, hcv, hct]⟩
    · exact ⟨st.args, by simp [step, h200, hcms, hcb, hcv, hct]⟩
    · exact ⟨st.args, by simp [step, h200, hcms, hcb, hcv, hct]⟩
    · by_cases hv : cval = "-||" ∧ ctoken ≠ ""
      · exact ⟨some (cval, ctoken), by
          rcases hv with ⟨hv1, hv2⟩
          subst hv1
          simp [step, h200, hcms, hcb, hcv, hct, hlen, hv2]⟩
      · exact ⟨st.args, by simp [step, h200, hcms, hcb, hcv, hct, hv]⟩

lemma step_invalid (st : LoopState) (r : Response) (cms : List PageRecord)
    (cb : ContBlock)
    (h200 : r.status = 200) (hcms : r.body.categorymembers = some cms)
    (hcb : r.body.contBlock = some cb)
    (hbad : ¬ (cb.cont = some "-||" ∧ ∃ t, cb.cmcontinue = some t ∧ t ≠ "")) :
    step st r = some { keep_going := false,
                       args := st.args,
                       all_categories := st.all_categories ++ cms } := by
  rcases hcv : cb.cont with _ | cval <;> rcases hct : cb.cmcontinue with _ | ctoken
  · simp [step, h200, hcms, hcb, hcv, hct]
  · simp [step, h200, hcms, hcb, hcv, hct]
  · simp [step, h200, hcms, hcb, hcv, hct]
  · have hv : ¬ (cval = "-||" ∧ ctoken ≠ "") := by
      rintro ⟨h1, h2⟩
      exact hbad ⟨by rw [hcv, h1], ctoken, hct, h2⟩
    simp [step, h200, hcms, hcb, hcv, hct, hv]

lemma step_err (st : LoopState) (r : Response) (h : ¬ r.status = 200) :
    step st r = some st := by
  simp [step, h]

lemma step_missing (st : LoopState) (r : Response) (h200 : r.status = 200)
    (hm : r.body.categorymembers = none) : step st r = none := by
  simp [step, h200, hm]

lemma step_200_spec (st : LoopState) (r : Response) (cms : List PageRecord)
    (st' : LoopState)
    (h200 : r.status = 200) (hcms : r.body.categorymembers = some cms)
    (hstep : step st r = some st') :
    st'.all_categories = st.all_categories ++ cms ∧
      (st'.args = st.args ∨ ∃ p, st'.args = some p) := by
  rcases hcb : r.body.contBlock with _ | cb
  · simp [step, h200, hcms, hcb] at hstep
    subst hstep
    exact ⟨rfl, Or.inl rfl⟩
  · rcases hcv : cb.cont with _ | cval <;> rcases hct : cb.cmcontinue with _ | ctoken
    · simp [step, h200, hcms, hcb, hcv, hct] at hstep
      subst hstep
      exact ⟨rfl, Or.inl rfl⟩
    · simp [step, h200, hcms, hcb, hcv, hct] at hstep
      subst hstep
      exact ⟨rfl, Or.inl rfl⟩
    · simp [step, h200, hcms, hcb, hcv, hct] at hstep
      subst hstep
      exact ⟨rfl, Or.inl rfl⟩
    · by_cases hv : cval = "-||" ∧ ctoken ≠ ""
      · simp [step, h200, hcms, hcb, hcv, hct, hv] at hstep
        subst hstep
        exact ⟨rfl, Or.inr ⟨_, rfl⟩⟩
      · simp [step, h200, hcms, hcb, hcv, hct, hv] at hstep
        subst hstep
        exact ⟨rfl, Or.inl rfl⟩

lemma step_extends (st : LoopState) (r : Response) (st' : LoopState)
    (hstep : step st r = some st') :
    ∃ tail, st'.all_categories = st.all_categories ++ tail := by
  by_cases h200 : r.status = 200
  · rcases hcms : r.body.categorymembers with _ | cms
    · rw [step_missing st r h200 hcms] at hstep
      cases hstep
    · exact ⟨cms, (step_200_spec st r cms st' h200 hcms hstep).1⟩
  · rw [step_err st r h200] at hstep
    injection hstep with h
    exact ⟨[], by simp [← h]⟩

lemma step_preserves_args (st : LoopState) (r : Response) (st' : LoopState)
    (hstep : step st r = some st') (hsome : st.args.isSome = true) :
    st'.args.isSome = true := by
  by_cases h200 : r.status = 200
  · rcases hcms : r.body.categorymembers with _ | cms
    · rw [step_missing st r h200 hcms] at hstep
      cases hstep
    · rcases (step_200_spec st r cms st' h200 hcms hstep).2 with h | ⟨p, hp⟩
      · rw [h]
        exact hsome
      · rw [hp]
        rfl
  · rw [step_err st r h200] at hstep
    injection hstep with h
    rw [← h]
    exact hsome

lemma run_cons_true (st : LoopState) (r : Response) (rest : List Response)
    (hkg : st.keep_going = true) (st2 : LoopState)
    (hstep : step st r = some st2) :
    run st (r :: rest) = run st2 rest := by
  simp [run, hkg, hstep]

lemma run_stop (st : LoopState) (rs : List Response)
    (hkg : st.keep_going = false) :
    run st rs = some (st, rs) := by
  cases rs <;> simp [run, hkg]

lemma run_extends (rs : List Response) : ∀ (st st' : LoopState)
    (rem : List Response), run st rs = some (st', rem) →
    ∃ tail, st'.all_categories = st.all_categories ++ tail := by
  induction rs with
  | nil =>
    intro st st' rem h
    simp [run] at h
    exact ⟨[], by simp [← h.1]⟩
  | cons r rest ih =>
    intro st st' rem h
    cases hkg : st.keep_going with
    | false =>
      rw [run_stop st (r :: rest) hkg] at h
      simp at h
      exact ⟨[], by simp [← h.1]⟩
    | true =>
      rcases hstep : step st r with _ | st2
      · simp [run, hkg, hstep] at h
      · rw [run_cons_true st r rest hkg st2 hstep] at h
        obtain ⟨tail2, h2⟩ := ih st2 st' rem h
        obtain ⟨tail1, h1⟩ := step_extends st r st2 hstep
        exact ⟨tail1 ++ tail2, by rw [h2, h1, List.append_assoc]⟩

lemma run_preserves_args (rs : List Response) : ∀ (st st' : LoopState)
    (rem : List Response), run st rs = some (st', rem) →
    st.args.isSome = true → st'.args.isSome = true := by
  induction rs with
  | nil =>
    intro st st' rem h hsome
    simp [run] at h
    rw [← h.1]
    exact hsome
  | cons r rest ih =>
    intro st st' rem h hsome
    cases hkg : st.keep_going with
    | false =>
      rw [run_stop st (r :: rest) hkg] at h
      simp at h
      rw [← h.1]
      exact hsome
    | true =>
      rcases hstep : step st r with _ | st2
      · simp [run, hkg, hstep] at h
      · rw [run_cons_true st r rest hkg st2 hstep] at h
        exact ih st2 st' rem h (step_preserves_args st r st2 hstep hsome)

lemma run_full_chain (pages : List Response) :
    ∀ (st : LoopState) (rest : List Response), st.keep_going = true →
    (∀ p ∈ pages, FullValidPage p) →
    ∃ a, run st (pages ++ rest) =
      run { keep_going := true,
            args := a,
            all_categories := st.all_categories ++ pages.flatMap recordsOf }
        rest := by
  induction pages with
  | nil =>
    intro st rest hkg _
    refine ⟨st.args, ?_⟩
    obtain ⟨k, a, c⟩ := st
    simp only [List.nil_append]
    simp only at hkg
    subst hkg
    simp
  | cons p ps ih =>
    intro st rest hkg hfull
    obtain ⟨h200, cms, cb, t, hcms, hlen, hcb, hcv, hct, ht⟩ :=
      hfull p (List.mem_cons_self p ps)
    have hstep := step_full st p cms cb t h200 hcms hlen hcb hcv hct ht
    have h1 : run st ((p :: ps) ++ rest) =
        run { keep_going := true,
              args := some ("-||", t),
              all_categories := st.all_categories ++ cms } (ps ++ rest) := by
      rw [List.cons_append]
      exact run_cons_true st p (ps ++ rest) hkg _ hstep
    obtain ⟨a, ha⟩ := ih
      { keep_going := true,
        args := some ("-||", t),
        all_categories := st.all_categories ++ cms } rest rfl
      (fun q hq => hfull q (List.mem_cons_of_mem p hq))
    refine ⟨a, ?_⟩
    rw [h1, ha]
    have hrec : recordsOf p = cms := by simp [recordsOf, hcms]
    have heq : (st.all_categories ++ cms) ++ ps.flatMap recordsOf =
        st.all_categories ++ (p :: ps).flatMap recordsOf := by
      rw [List.flatMap_cons, hrec, List.append_assoc]
    rw [heq]

/-- A sample record used in concrete scenarios. -/
def recA : PageRecord := { title := "alpha" }

/-- A second sample record. -/
def recB : PageRecord := { title := "beta" }

/-- A third sample record. -/
def recC : PageRecord := { title := "gamma" }

/-- A full page: 500 records and a valid continuation block. -/
def pageFull : Response :=
  { status := 200,
    body := { categorymembers := some (List.replicate 500 recA),
              contBlock := some { cont := some "-||", cmcontinue := some "tok1" } } }

/-- A short final page: 150 records, no continuation block. -/
def pageShort150 : Response :=
  { status := 200,
    body := { categorymembers := some (List.replicate 150 recB),
              contBlock := none } }

/-- A full page whose continuation block has the wrong continue value. -/
def pageBadCont : Response :=
  { status := 200,
    body := { categorymembers := some (List.replicate 500 recA),
              contBlock := some { cont := some "||-", cmcontinue := some "tok2" } } }

/-- A non-200 response. -/
def pageErr : Response :=
  { status := 503, body := { categorymembers := none, contBlock := none } }

/-- A short page of three records, no continuation block. -/
def pageThree : Response :=
  { status := 200,
    body := { categorymembers := some [recA, recB, recC], contBlock := none } }

/-- A 200 response whose body lacks query.categorymembers. -/
def pageMissing : Response :=
  { status := 200, body := { categorymembers := none, contBlock := none } }

/-- C3: for every successful response whose continuation block is present
but whose continue field is any value other than the exact literal "-||",
or whose cmcontinue token is absent or empty, the loop terminates after
processing that page (keep_going becomes false and no further response is
consumed), regardless of how many records the page contained; the page's
records are still appended. -/
theorem c3_invalid_continuation_terminates (st : LoopState) (r : Response)
    (cms : List PageRecord) (cb : ContBlock)
    (h200 : r.status = 200) (hcms : r.body.categorymembers = some cms)
    (hcb : r.body.contBlock = some cb)
    (hbad : ¬ (cb.cont = some "-||" ∧ ∃ t, cb.cmcontinue = some t ∧ t ≠ "")) :
    ∃ st', step st r = some st' ∧ st'.keep_going = false ∧
      st'.all_categories = st.all_categories ++ cms ∧
      ∀ rest, run st' rest = some (st', rest) := by
  refine ⟨_, step_invalid st r cms cb h200 hcms hcb hbad, rfl, rfl, ?_⟩
  intro rest
  exact run_stop _ rest rfl

/-- Witness for C3 at a full page whose continue value is "||-". -/
theorem c3_witness :
    ∃ st', step initState pageBadCont = some st' ∧ st'.keep_going = false ∧
      st'.all_categories = initState.all_categories ++ List.replicate 500 recA ∧
      ∀ rest, run st' rest = some (st', rest) :=
  c3_invalid_continuation_terminates initState pageBadCont _ _ rfl rfl rfl
    (by
      rintro ⟨h1, -⟩
      exact absurd h1 (by decide))

/-- C4: for every response with a non-200 status, the iteration leaves the
whole loop state (keep_going flag, accumulated records, continuation
request parameters) unchanged, so the next iteration re-issues a request
from the identical state: consuming the failed response leads to the same
continuation of the run. -/
theorem c4_non200_keeps_state (st : LoopState) (r : Response)
    (rs : List Response) (h : ¬ r.status = 200) :
    step st r = some st ∧
      (st.keep_going = true → run st (r :: rs) = run st rs) := by
  refine ⟨step_err st r h, fun hkg => ?_⟩
  exact run_cons_true st r rs hkg st (step_err st r h)

/-- Witness for C4 at a 503 response. -/
theorem c4_witness :
    step initState pageErr = some initState ∧
      (initState.keep_going = true →
        run initState (pageErr :: []) = run initState []) :=
  c4_non200_keeps_state initState pageErr [] (by decide)

/-- C5: for every first response whose record list is strictly shorter
than batch_size, the loop terminates after exactly one fetch and the
output file contains exactly those records' titles, one per line, in API
order. -/
theorem c5_short_first_page (r : Response) (cms : List PageRecord)
    (h200 : r.status = 200) (hcms : r.body.categorymembers = some cms)
    (hshort : cms.length < batch_size) :
    ∃ st', run initState [r] = some (st', []) ∧ st'.keep_going = false ∧
      st'.all_categories = cms ∧
      programOutput [r] = some (countLine cms.length, outputFile cms) := by
  obtain ⟨a, hstep⟩ := step_short initState r cms h200 hcms hshort
  have hstep' : step initState r = some
      { keep_going := false, args := a, all_categories := cms } := by
    rw [hstep]
    simp [initState]
  have h1 : run initState [r] =
      run { keep_going := false, args := a, all_categories := cms } [] :=
    run_cons_true initState r [] rfl _ hstep'
  have h2 := run_stop
    ({ keep_going := false, args := a, all_categories := cms } : LoopState) [] rfl
  refine ⟨_, by rw [h1, h2], rfl, rfl, ?_⟩
  simp [programOutput, runProgram, h1, h2]

/-- Witness for C5 at a three-record page. -/
theorem c5_witness :
    ∃ st', run initState [pageThree] = some (st', []) ∧
      st'.keep_going = false ∧
      st'.all_categories = [recA, recB, recC] ∧
      programOutput [pageThree] =
        some (countLine ([recA, recB, recC]).length,
              outputFile [recA, recB, recC]) :=
  c5_short_first_page pageThree _ rfl rfl (by decide)

/-- C6: for every 200 response whose parsed body lacks the query key or
the categorymembers key under it, the run aborts with an unhandled
exception (modelled as `none`), and no output is produced. -/
theorem c6_missing_keys_abort (r : Response) (rest : List Response)
    (h200 : r.status = 200) (hmiss : r.body.categorymembers = none) :
    runProgram (r :: rest) = none ∧ programOutput (r :: rest) = none := by
  have h1 : run initState (r :: rest) = none := by
    have h0 := step_missing initState r h200 hmiss
    have hkg : initState.keep_going = true := rfl
    simp [run, hkg, h0]
  exact ⟨h1, by simp [programOutput, runProgram, h1]⟩

/-- Witness for C6 at a 200 response with an empty body. -/
theorem c6_witness :
    runProgram [pageMissing] = none ∧ programOutput [pageMissing] = none :=
  c6_missing_keys_abort pageMissing [] rfl rfl

/-- C8: for every successful well-formed response processed while the loop
runs, the page's records are appended to the accumulator even when that
page makes the loop terminate, so a terminating page's titles always
appear in the output. -/
theorem c8_terminating_page_appended (st : LoopState) (r : Response)
    (cms : List PageRecord) (st' : LoopState)
    (h200 : r.status = 200) (hcms : r.body.categorymembers = some cms)
    (hstep : step st r = some st') (hterm : st'.keep_going = false) :
    st'.all_categories = st.all_categories ++ cms :=
  (step_200_spec st r cms st' h200 hcms hstep).1

/-- Witness for C8 at a terminating three-record page. -/
theorem c8_witness :
    ({ keep_going := false, args := (none : Option (String × String)),
       all_categories := [recA, recB, recC] } : LoopState).all_categories =
      initState.all_categories ++ [recA, recB, recC] :=
  c8_terminating_page_appended initState pageThree _
    { keep_going := false, args := none, all_categories := [recA, recB, recC] }
    rfl rfl (by decide) rfl

/-- C1: for every multi-page sequence in which each non-final page is a
full page with a valid continuation block and the final page is short,
the loop consumes exactly one response per page (even when further
responses would be available), terminates after the short page with
keep_going = false, accumulates the concatenation of all pages' records in
fetch order, and the run's output is the printed count together with the
output file holding one title per line of that concatenation. -/
theorem c1_multi_page_enumeration (pages : List Response) (lastr : Response)
    (extra : List Response)
    (hfull : ∀ p ∈ pages, FullValidPage p) (hlast : ShortPage lastr) :
    ∃ st', run initState (pages ++ lastr :: extra) = some (st', extra) ∧
      st'.keep_going = false ∧
      st'.all_categories = (pages ++ [lastr]).flatMap recordsOf ∧
      programOutput (pages ++ lastr :: extra) =
        some (countLine ((pages ++ [lastr]).flatMap recordsOf).length,
              outputFile ((pages ++ [lastr]).flatMap recordsOf)) := by
  obtain ⟨h200, cms, hcms, hlen⟩ := hlast
  obtain ⟨a, ha⟩ := run_full_chain pages initState (lastr :: extra) rfl hfull
  have ha' : run initState (pages ++ lastr :: extra) =
      run { keep_going := true, args := a,
            all_categories := ([] : List PageRecord) ++ pages.flatMap recordsOf }
        (lastr :: extra) := ha
  obtain ⟨a2, hstep⟩ := step_short
    { keep_going := true, args := a,
      all_categories := ([] : List PageRecord) ++ pages.flatMap recordsOf }
    lastr cms h200 hcms hlen
  have hstep' : step
      ({ keep_going := true, args := a,
         all_categories := ([] : List PageRecord) ++ pages.flatMap recordsOf } :
        LoopState) lastr =
      some { keep_going := false, args := a2,
             all_categories :=
               (([] : List PageRecord) ++ pages.flatMap recordsOf) ++ cms } := hstep
  have h2 := run_cons_true
    { keep_going := true, args := a,
      all_categories := ([] : List PageRecord) ++ pages.flatMap recordsOf }
    lastr extra rfl _ hstep'
  have h3 := run_stop
    ({ keep_going := false, args := a2,
       all_categories :=
         (([] : List PageRecord) ++ pages.flatMap recordsOf) ++ cms } : LoopState)
    extra rfl
  have hrun : run initState (pages ++ lastr :: extra) =
      some ({ keep_going := false, args := a2,
              all_categories :=
                (([] : List PageRecord) ++ pages.flatMap recordsOf) ++ cms },
            extra) := by
    rw [ha', h2, h3]
  have hrec : recordsOf lastr = cms := by simp [recordsOf, hcms]
  have hall : (([] : List PageRecord) ++ pages.flatMap recordsOf) ++ cms =
      (pages ++ [lastr]).flatMap recordsOf := by
    simp [hrec]
  refine ⟨_, hrun, rfl, hall, ?_⟩
  have hout : programOutput (pages ++ lastr :: extra) =
      some (countLine (([] ++ pages.flatMap recordsOf ++ cms)).length,
            outputFile ([] ++ pages.flatMap recordsOf ++ cms)) := by
    unfold programOutput runProgram
    rw [hrun]
    rfl
  rw [hout, hall]

/-- Witness for C1: 650 members split as 500 + 150 yield two fetches, a
650-record accumulator, the printed line "Found 650 categories." and a
650-line output file. -/
theorem c1_witness :
    (∃ st', run initState ([pageFull] ++ pageShort150 :: []) = some (st', []) ∧
      st'.keep_going = false ∧
      st'.all_categories = ([pageFull] ++ [pageShort150]).flatMap recordsOf ∧
      programOutput ([pageFull] ++ pageShort150 :: []) =
        some (countLine (([pageFull] ++ [pageShort150]).flatMap recordsOf).length,
              outputFile (([pageFull] ++ [pageShort150]).flatMap recordsOf))) ∧
    countLine (([pageFull] ++ [pageShort150]).flatMap recordsOf).length =
      "Found 650 categories." ∧
    (outputLines (([pageFull] ++ [pageShort150]).flatMap recordsOf)).length = 650 :=
  ⟨c1_multi_page_enumeration [pageFull] pageShort150 []
      (by
        intro p hp
        rw [List.mem_singleton] at hp
        subst hp
        exact ⟨rfl, List.replicate 500 recA,
          { cont := some "-||", cmcontinue := some "tok1" }, "tok1",
          rfl, by decide, rfl, rfl, rfl, by decide⟩)
      ⟨rfl, List.replicate 150 recB, rfl, by decide⟩,
    by decide, by decide⟩

/-- A full page (exactly batch_size records) with NO continuation block:
the input on which the code and claim C2 diverge. -/
def pageFullNoCont : Response :=
  { status := 200,
    body := { categorymembers := some (List.replicate 500 recA),
              contBlock := none } }

/-- C2 evaluation: on a 200 response carrying exactly batch_size records
and no continuation block, the iteration leaves keep_going = true with
unchanged request parameters, so the loop does NOT terminate after that
fetch; fed the same response again it appends the same 500 records a
second time.  This contradicts the claim that the loop terminates after
the single fetch with exactly those titles written. -/
theorem c2_full_page_without_cont_keeps_looping :
    step initState pageFullNoCont =
      some { keep_going := true,
             args := none,
             all_categories := List.replicate 500 recA } ∧
    run initState [pageFullNoCont, pageFullNoCont] =
      some ({ keep_going := true,
              args := none,
              all_categories := List.replicate 1000 recA }, []) := by
  constructor
  · decide
  · decide

/-- C7: across a whole run the accumulator only grows at its end (the
initial accumulator is a prefix of the final one), and the printed count
and output file are produced once, in full, from the final accumulator
after the loop has exited. -/
theorem c7_accumulator_monotone (st : LoopState) (rs : List Response)
    (st' : LoopState) (rem : List Response)
    (h : run st rs = some (st', rem)) :
    (∃ tail, st'.all_categories = st.all_categories ++ tail) ∧
      ∀ p, runProgram rs = some p →
        programOutput rs =
          some (countLine p.1.all_categories.length,
                outputFile p.1.all_categories) := by
  refine ⟨run_extends rs st st' rem h, ?_⟩
  intro p hp
  simp [programOutput, hp]

/-- Witness for C7 at a one-page run. -/
theorem c7_witness :
    (∃ tail,
      ({ keep_going := false,
         args := (none : Option (String × String)),
         all_categories := [recA, recB, recC] } : LoopState).all_categories =
        initState.all_categories ++ tail) ∧
      ∀ p, runProgram [pageThree] = some p →
        programOutput [pageThree] =
          some (countLine p.1.all_categories.length,
                outputFile p.1.all_categories) :=
  c7_accumulator_monotone initState [pageThree]
    { keep_going := false, args := none, all_categories := [recA, recB, recC] }
    [] (by decide)

/-- C9: once continuation parameters are present in the request arguments
they are never removed: every later state of the run still carries some
continuation pair; and an iteration whose response lacks a valid
continuation block (absent block, wrong continue value, or absent or
empty token) leaves the previously stored pair exactly in place. -/
theorem c9_continuation_never_cleared (st : LoopState) (rs : List Response)
    (st' : LoopState) (rem : List Response)
    (hrun : run st rs = some (st', rem)) (hsome : st.args.isSome = true) :
    st'.args.isSome = true ∧
      ∀ s r s2, step s r = some s2 → hasNoValidCont r → s2.args = s.args := by
  refine ⟨run_preserves_args rs st st' rem hrun hsome, ?_⟩
  intro s r s2 hstep hnv
  by_cases h200 : r.status = 200
  · rcases hcms : r.body.categorymembers with _ | cms
    · rw [step_missing s r h200 hcms] at hstep
      cases hstep
    · rcases hcb : r.body.contBlock with _ | cb
      · simp [step, h200, hcms, hcb] at hstep
        subst hstep
        rfl
      · rw [step_invalid s r cms cb h200 hcms hcb (hnv cb hcb)] at hstep
        injection hstep with h
        rw [← h]
  · rw [step_err s r h200] at hstep
    injection hstep with h
    rw [← h]

/-- Witness for C9 at a state already holding a continuation pair. -/
theorem c9_witness :
    ({ keep_going := true, args := some ("-||", "t0"),
       all_categories := ([] : List PageRecord) } : LoopState).args.isSome = true ∧
      ∀ s r s2, step s r = some s2 → hasNoValidCont r → s2.args = s.args :=
  c9_continuation_never_cleared
    { keep_going := true, args := some ("-||", "t0"), all_categories := [] } []
    { keep_going := true, args := some ("-||", "t0"), all_categories := [] } []
    rfl rfl

/-- C10: the enumerator is deterministic in its environment: two runs over
the same response sequence produce the same printed count and the same
output file contents (the run is a pure function of the response list). -/
theorem c10_deterministic (rs : List Response) (o1 o2 : Option (String × String))
    (h1 : programOutput rs = o1) (h2 : programOutput rs = o2) : o1 = o2 :=
  h1.symm.trans h2

/-- Witness for C10 at the empty response sequence. -/
theorem c10_witness :
    (some (countLine 0, outputFile []) : Option (String × String)) =
      some (countLine 0, outputFile []) :=
  c10_deterministic [] _ _ rfl rfl

end GrabWiktPages
